import Mathlib

/-!
Shallow embedding of the identity-encoding, request-signing and
telemetry-batching core of the `langchain_ethys402` library
(`auth.py`, `types.py`, `errors.py`, `callbacks.py`), together with
theorems settling the specification claims about it.

Machine bytes are modelled as `Nat` values below 256; Python `int` is
modelled as `Int`; fallible Python code (raising) is modelled with
`Except`.  The external cryptographic primitives (keccak256 of
`eth_utils`, ECDSA signing/recovery of `eth_account`) are not code of
this repository: they are taken as explicit function parameters, so
every statement quantifies over them.
-/

namespace Ethys

/-! ### Bytes and hex helpers (models of Python built-ins) -/

/-- Hex value of a character, as accepted by `bytes.fromhex`. -/
def hexVal? (c : Char) : Option Nat :=
  if '0' ≤ c ∧ c ≤ '9' then some (c.toNat - '0'.toNat)
  else if 'a' ≤ c ∧ c ≤ 'f' then some (c.toNat - 'a'.toNat + 10)
  else if 'A' ≤ c ∧ c ≤ 'F' then some (c.toNat - 'A'.toNat + 10)
  else none

/-- ASCII whitespace, skipped between byte pairs by `bytes.fromhex`
(Python 3.11 semantics: all ASCII whitespace, not only spaces). -/
def isPySpace (c : Char) : Bool :=
  c = ' ' || c = '\t' || c = '\n' || c = '\x0b' || c = '\x0c' || c = '\r'

/-- Model of CPython `bytes.fromhex` on a character list: whitespace is
skipped between pairs; each byte needs two adjacent hex digits; anything
else (including an odd trailing digit) raises `ValueError`. -/
def pyBytesFromHexAux : List Char → Except String (List Nat)
  | [] => .ok []
  | c :: rest =>
    if isPySpace c then pyBytesFromHexAux rest
    else
      match hexVal? c with
      | none => .error "non-hexadecimal number found in fromhex arg"
      | some hi =>
        match rest with
        | [] => .error "non-hexadecimal number found in fromhex arg"
        | c2 :: rest2 =>
          match hexVal? c2 with
          | none => .error "non-hexadecimal number found in fromhex arg"
          | some lo => (pyBytesFromHexAux rest2).map (fun bs => (16 * hi + lo) :: bs)

/-- `bytes.fromhex` on a string. -/
def bytesFromHex (s : String) : Except String (List Nat) :=
  pyBytesFromHexAux s.data

/-- Big-endian digits of `n` on exactly `len` bytes (low bytes of `n`). -/
def natToBEBytes : Nat → Nat → List Nat
  | 0, _ => []
  | l + 1, n => natToBEBytes l (n / 256) ++ [n % 256]

/-- Model of Python `int.to_bytes(len, "big")`: `OverflowError` when the
integer is negative or does not fit in `len` bytes. -/
def intToBytesBE (len : Nat) (v : Int) : Except String (List Nat) :=
  if v < 0 then .error "cannot convert negative int to unsigned"
  else if (256 : Int) ^ len ≤ v then .error "int too big to convert"
  else .ok (natToBEBytes len v.toNat)

/-- Lowercase hex character of a value below 16. -/
def hexChar (n : Nat) : Char :=
  if n < 10 then Char.ofNat ('0'.toNat + n) else Char.ofNat ('a'.toNat + (n - 10))

/-- Two lowercase hex characters of a byte. -/
def byteToHexChars (b : Nat) : List Char :=
  [hexChar (b / 16), hexChar (b % 16)]

/-- Model of `eth_utils.to_hex`: `0x`-prefixed lowercase hex of a byte string. -/
def toHexStr (bs : List Nat) : String :=
  "0x" ++ String.mk (bs.map byteToHexChars).flatten

/-- Model of Python `str.lower()` (on the ASCII fragment the library
uses): lowercase every character. -/
def pyLower (s : String) : String := String.mk (s.data.map Char.toLower)

/-- Model of Python `str.startswith`. -/
def pyStartsWith (s p : String) : Bool := p.data.isPrefixOf s.data

/-! ### `types.py`: the `AgentIdentity` model and its pydantic validators -/

/-- `AgentIdentity` field record (`types.py`).  `version` and `token_id`
are Python ints, hence `Int`. -/
structure AgentIdentity where
  version : Int
  identity_type : String
  address : String
  token_id : Option Int
deriving Repr, DecidableEq

/-- `AgentIdentity.validate_identity_type` (`types.py` lines 18-24). -/
def validate_identity_type (v : String) : Except String String :=
  if v == "EOA" || v == "ERC6551" then .ok v
  else .error "identity_type must be EOA or ERC6551"

/-- `AgentIdentity.validate_address` (`types.py` lines 26-32): only the
`0x` prefix and the total length 42 are checked, then the value is
lowercased.  The characters are not checked to be hex digits. -/
def validate_address (v : String) : Except String String :=
  if !(pyStartsWith v "0x") || v.length != 42 then
    .error "address must be a valid Ethereum address"
  else .ok (pyLower v)

/-- Pydantic construction of `AgentIdentity`: field validators run in
field order (`identity_type` before `address`). -/
def mkAgentIdentity (version : Int) (identity_type address : String)
    (token_id : Option Int) : Except String AgentIdentity := do
  let t ← validate_identity_type identity_type
  let a ← validate_address address
  .ok { version := version, identity_type := t, address := a, token_id := token_id }

/-! ### `errors.py` / `auth.py`: encoding errors and identity encoding -/

/-- Errors `encode_agent_identity` can raise: the library's
`ValidationError` (`errors.py`), Python's `ValueError` (from
`bytes.fromhex`) and `OverflowError` (from `int.to_bytes`). -/
inductive EncodeError where
  | validationError (msg : String)
  | valueError (msg : String)
  | overflowError (msg : String)
deriving Repr, DecidableEq

/-- `encode_agent_identity` (`auth.py` lines 13-44), in the source's
evaluation order: version byte, kind byte, address bytes from
`address[2:]`, then the 32-byte big-endian token id.  The EOA branch
always emits 32 zero bytes; the ERC6551 branch tests Python truthiness
of `token_id`, so both `None` and `0` give 32 zero bytes. -/
def encode_agent_identity (identity : AgentIdentity) : Except EncodeError (List Nat) :=
  if identity.identity_type == "EOA" then do
    let version ← (intToBytesBE 1 identity.version).mapError .overflowError
    let kind : List Nat := [1]
    let addressBytes ← (bytesFromHex (identity.address.drop 2)).mapError .valueError
    let tokenId : List Nat := List.replicate 32 0
    .ok (version ++ kind ++ addressBytes ++ tokenId)
  else if identity.identity_type == "ERC6551" then do
    let version ← (intToBytesBE 1 identity.version).mapError .overflowError
    let kind : List Nat := [2]
    let addressBytes ← (bytesFromHex (identity.address.drop 2)).mapError .valueError
    let tokenIdBytes ← (match identity.token_id with
      | some t =>
        if t == 0 then .ok (List.replicate 32 0)
        else (intToBytesBE 32 t).mapError EncodeError.overflowError
      | none => .ok (List.replicate 32 0))
    .ok (version ++ kind ++ addressBytes ++ tokenIdBytes)
  else
    .error (.validationError ("Unsupported identity type: " ++ identity.identity_type))

/-- `derive_agent_id_key` (`auth.py` lines 47-61): keccak256 of the
encoding, rendered with `to_hex`.  `keccak` is the external hash,
taken as a parameter. -/
def derive_agent_id_key (keccak : List Nat → List Nat)
    (identity : AgentIdentity) : Except EncodeError String :=
  (encode_agent_identity identity).map (fun bs => toHexStr (keccak bs))

/-! ### JSON values and the model of `json.dumps(..., sort_keys=True,
separators=(",", ":"))` used by `prepare_telemetry_message` -/

/-- JSON values as the library passes them to `json.dumps`: the event
dictionaries hold strings, ints, bools, nulls, lists and nested dicts. -/
inductive Json where
  | jnull
  | jbool (b : Bool)
  | jint (n : Int)
  | jstr (s : String)
  | jarr (elements : List Json)
  | jobj (pairs : List (String × Json))

/-- Four lowercase hex characters of a value below 0x10000. -/
def hex4 (n : Nat) : List Char :=
  [hexChar (n / 4096 % 16), hexChar (n / 256 % 16), hexChar (n / 16 % 16), hexChar (n % 16)]

/-- Escaping of one character as CPython `json.dumps` does with the
default `ensure_ascii=True`. -/
def quoteJsonChar (c : Char) : List Char :=
  if c = '"' then ['\\', '"']
  else if c = '\\' then ['\\', '\\']
  else if c = '\n' then ['\\', 'n']
  else if c = '\r' then ['\\', 'r']
  else if c = '\t' then ['\\', 't']
  else if c = '\x08' then ['\\', 'b']
  else if c = '\x0c' then ['\\', 'f']
  else if c.toNat < 0x20 ∨ 0x7f ≤ c.toNat then
    if c.toNat < 0x10000 then '\\' :: 'u' :: hex4 c.toNat
    else
      let v := c.toNat - 0x10000
      ('\\' :: 'u' :: hex4 (0xd800 + v / 0x400)) ++ ('\\' :: 'u' :: hex4 (0xdc00 + v % 0x400))
  else [c]

/-- JSON string literal with surrounding quotes. -/
def quoteJsonString (s : String) : String :=
  String.mk ('"' :: (s.data.map quoteJsonChar).flatten ++ ['"'])

/-- Lexicographic comparison of character lists by code point, as
Python compares strings. -/
def strLtChars : List Char → List Char → Bool
  | [], [] => false
  | [], _ :: _ => true
  | _ :: _, [] => false
  | x :: xs, y :: ys =>
    if x.toNat < y.toNat then true
    else if y.toNat < x.toNat then false
    else strLtChars xs ys

/-- Python string `<`. -/
def strLt (a b : String) : Bool := strLtChars a.data b.data

/-- Python string `<=` (total order, so `a <= b` iff not `b < a`). -/
def strLe (a b : String) : Bool := !(strLt b a)

/-- Stable insertion of a key-value pair into a key-sorted list: an
element inserted later goes after existing equal keys. -/
def insertPair (p : String × Json) : List (String × Json) → List (String × Json)
  | [] => [p]
  | q :: qs => if strLe p.1 q.1 then p :: q :: qs else q :: insertPair p qs

/-- Stable sort by key, as `sorted` does on dict items. -/
def sortPairs : List (String × Json) → List (String × Json)
  | [] => []
  | p :: ps => insertPair p (sortPairs ps)

mutual
/-- Recursively sort the keys of every object, the effect of
`sort_keys=True` at every nesting level. -/
def sortJson : Json → Json
  | .jnull => .jnull
  | .jbool b => .jbool b
  | .jint n => .jint n
  | .jstr s => .jstr s
  | .jarr xs => .jarr (sortJsonList xs)
  | .jobj ps => .jobj (sortPairs (sortJsonPairs ps))

def sortJsonList : List Json → List Json
  | [] => []
  | x :: xs => sortJson x :: sortJsonList xs

def sortJsonPairs : List (String × Json) → List (String × Json)
  | [] => []
  | (k, v) :: ps => (k, sortJson v) :: sortJsonPairs ps
end

mutual
/-- Serialization with the separators `(",", ":")` and no whitespace;
object keys are emitted in list order (sorting is done by `sortJson`). -/
def renderJson : Json → String
  | .jnull => "null"
  | .jbool true => "true"
  | .jbool false => "false"
  | .jint n => toString n
  | .jstr s => quoteJsonString s
  | .jarr xs => "[" ++ renderJsonList xs ++ "]"
  | .jobj ps => "\x7b" ++ renderJsonPairs ps ++ "\x7d"

def renderJsonList : List Json → String
  | [] => ""
  | [x] => renderJson x
  | x :: y :: xs => renderJson x ++ "," ++ renderJsonList (y :: xs)

def renderJsonPairs : List (String × Json) → String
  | [] => ""
  | [(k, v)] => quoteJsonString k ++ ":" ++ renderJson v
  | (k, v) :: q :: ps => quoteJsonString k ++ ":" ++ renderJson v ++ "," ++ renderJsonPairs (q :: ps)
end

/-- Model of `json.dumps(j, sort_keys=True, separators=(",", ":"))`. -/
def pyJsonDumpsSorted (j : Json) : String := renderJson (sortJson j)

/-! ### `auth.py`: message preparation and signing -/

/-- `prepare_telemetry_message` (`auth.py` lines 151-185): the payload
dict is built in insertion order `agentId, address, ts, nonce, events`,
the address lowercased, and serialized with sorted keys and fixed
separators. -/
def prepare_telemetry_message (agent_id address : String) (timestamp : Int)
    (nonce : String) (events : List Json) : String :=
  pyJsonDumpsSorted (.jobj
    [("agentId", .jstr agent_id),
     ("address", .jstr (pyLower address)),
     ("ts", .jint timestamp),
     ("nonce", .jstr nonce),
     ("events", .jarr events)])

/-- `sign_message` (`auth.py` lines 101-117): normalizes the key to a
`0x` prefix and defers to the external ECDSA signer (parameter
`ecdsaSign`, modelling `Account.sign_message` over the
`encode_defunct` personal-message encoding). -/
def sign_message (ecdsaSign : String → String → String)
    (message private_key : String) : String :=
  let key := if pyStartsWith private_key "0x" then private_key else "0x" ++ private_key
  ecdsaSign message key

/-- `verify_signature` (`auth.py` lines 120-136): recovery (parameter
`recover`, modelling `Account.recover_message`; an `Except.error` is a
raised exception) followed by a case-insensitive address comparison;
every exception is caught and yields `false`. -/
def verify_signature (recover : String → String → Except String String)
    (message signature address : String) : Bool :=
  match recover message signature with
  | .ok recovered => pyLower recovered == pyLower address
  | .error _ => false

/-- `sign_telemetry_request` (`auth.py` lines 188-210). -/
def sign_telemetry_request (ecdsaSign : String → String → String)
    (agent_id address : String) (timestamp : Int) (nonce : String)
    (events : List Json) (private_key : String) : String :=
  sign_message ecdsaSign
    (prepare_telemetry_message agent_id address timestamp nonce events) private_key

/-! ### `callbacks.py`: the telemetry batching accumulator
(`EthysTelemetryCallbackHandler`)

The handler's mutable fields are a state record; the clock, the random
nonce and the network's reaction to one submission are parameters of
each operation.  `sendTelemetry` models `_send_telemetry`: a `try` body
(`sendTelemetryBody`, an `Except`) whose error is caught and logged,
never re-raised. -/

/-- One batched event dict as `_add_event` builds it:
`{"eventType": ..., "timestamp": int(time.time()), "data": ...}`. -/
structure TelemetryEventRec where
  eventType : String
  timestamp : Int
  data : Json

/-- The mutable state of `EthysTelemetryCallbackHandler`. -/
structure HandlerState where
  agent_id : String
  address : String
  private_key : String
  enabled : Bool
  batch_size : Int
  events : List TelemetryEventRec
  last_send_time : Int

/-- `__init__` (`callbacks.py` lines 37-66): empty batch, zero send time. -/
def initHandlerState (agent_id address private_key : String)
    (enabled : Bool) (batch_size : Int) : HandlerState :=
  { agent_id := agent_id, address := address, private_key := private_key,
    enabled := enabled, batch_size := batch_size, events := [], last_send_time := 0 }

/-- The environment's reaction to one submission attempt: a parsed
response with `success=true`, a parsed response with `success=false`,
or an exception raised anywhere in the `try` body (signing failure,
network error, HTTP error, malformed response). -/
inductive SendOutcome where
  | respSuccess (message : Option String)
  | respFailure (message : Option String)
  | raiseExc (message : String)
deriving Repr, DecidableEq

/-- The event dicts as `model_dump(by_alias=True)` serializes them for
the request body (`callbacks.py` lines 104-110): keys `eventType`,
`timestamp`, `data`. -/
def eventToJson (e : TelemetryEventRec) : Json :=
  .jobj [("eventType", .jstr e.eventType), ("timestamp", .jint e.timestamp),
         ("data", e.data)]

/-- The `TelemetryRequest` body posted to the telemetry endpoint
(`callbacks.py` lines 105-115): `model_dump(by_alias=True)` of the
pydantic model, field for field. -/
structure TelemetryRequestRec where
  agentId : String
  address : String
  ts : Int
  nonce : String
  events : List Json
  signature : String

/-- The request `_send_telemetry` builds (`callbacks.py` lines 90-112):
the signature is over the prepared message (which lowercases the
address), while the body's `address` field is `self.address` verbatim. -/
def buildTelemetryRequest (ecdsaSign : String → String → String)
    (s : HandlerState) (timestamp : Int) (nonce : String) : TelemetryRequestRec :=
  { agentId := s.agent_id,
    address := s.address,
    ts := timestamp,
    nonce := nonce,
    events := s.events.map eventToJson,
    signature := sign_telemetry_request ecdsaSign s.agent_id s.address timestamp
      nonce (s.events.map eventToJson) s.private_key }

/-- The `try` body of `_send_telemetry` (`callbacks.py` lines 89-124):
builds and signs the request, posts it, and on a parsed response either
clears the batch (`success`) or keeps it (`not success`).  An
`Except.error` is an exception escaping the body. -/
def sendTelemetryBody (ecdsaSign : String → String → String) (s : HandlerState)
    (timestamp : Int) (nonce : String) (o : SendOutcome) : Except String HandlerState :=
  let _request := buildTelemetryRequest ecdsaSign s timestamp nonce
  match o with
  | .raiseExc msg => .error msg
  | .respSuccess _ => .ok { s with events := [], last_send_time := timestamp }
  | .respFailure _ => .ok s

/-- `_send_telemetry` (`callbacks.py` lines 84-127) and `flush`
(lines 234-236): early return when the batch is empty or telemetry is
disabled; otherwise one submission attempt whose exception, if any, is
caught and swallowed.  Returns the new state and the number of
submission attempts made (0 or 1). -/
def sendTelemetry (ecdsaSign : String → String → String) (s : HandlerState)
    (timestamp : Int) (nonce : String) (o : SendOutcome) : HandlerState × Nat :=
  if s.events.isEmpty || !s.enabled then (s, 0)
  else
    match sendTelemetryBody ecdsaSign s timestamp nonce o with
    | .ok s2 => (s2, 1)
    | .error _ => (s, 1)

/-- `_add_event` (`callbacks.py` lines 68-82): no-op when disabled;
otherwise append the event and, if the batch size reached
`batch_size`, trigger `_send_telemetry` once. -/
def addEvent (ecdsaSign : String → String → String) (s : HandlerState)
    (now : Int) (event_type : String) (data : Json)
    (nonce : String) (o : SendOutcome) : HandlerState × Nat :=
  if !s.enabled then (s, 0)
  else
    let s2 := { s with events :=
      s.events ++ [{ eventType := event_type, timestamp := now, data := data }] }
    if s.batch_size ≤ (s2.events.length : Int) then sendTelemetry ecdsaSign s2 now nonce o
    else (s2, 0)

/-- One externally triggered operation on the accumulator: a recorded
event (any `on_*` callback funnels into `_add_event`) or a manual
`flush()`. -/
inductive AccOp where
  | record (now : Int) (event_type : String) (data : Json) (nonce : String) (o : SendOutcome)
  | flushOp (now : Int) (nonce : String) (o : SendOutcome)

/-- Step of the accumulator state machine; also yields the number of
submission attempts the operation made. -/
def stepAcc (ecdsaSign : String → String → String) (s : HandlerState) :
    AccOp → HandlerState × Nat
  | .record now event_type data nonce o => addEvent ecdsaSign s now event_type data nonce o
  | .flushOp now nonce o => sendTelemetry ecdsaSign s now nonce o

/-- Run a sequence of operations. -/
def runAcc (ecdsaSign : String → String → String) (s : HandlerState) :
    List AccOp → HandlerState
  | [] => s
  | op :: ops => runAcc ecdsaSign (stepAcc ecdsaSign s op).1 ops

/-- Total number of submission attempts over a sequence of operations. -/
def runAccAttempts (ecdsaSign : String → String → String) (s : HandlerState) :
    List AccOp → Nat
  | [] => 0
  | op :: ops =>
    (stepAcc ecdsaSign s op).2 + runAccAttempts ecdsaSign (stepAcc ecdsaSign s op).1 ops

/-! ### Helper lemmas about the byte-level building blocks -/

/-- A character `bytes.fromhex` accepts as a hex digit. -/
def isHexChar (c : Char) : Bool := (hexVal? c).isSome

/-- `0x`-prefixed, 42 characters total, 40 hex digits after the prefix:
the address shape the specification's claims quantify over. -/
def is0xHex40 (s : String) : Bool :=
  pyStartsWith s "0x" && s.length == 42 && (s.drop 2).data.all isHexChar

lemma natToBEBytes_length (l : Nat) : ∀ n, (natToBEBytes l n).length = l := by
  induction l with
  | zero => intro n; rfl
  | succ k ih => intro n; simp [natToBEBytes, ih]

/-- Big-endian interpretation of a byte string, the inverse reading of
`natToBEBytes`. -/
def beBytesToNat (bs : List Nat) : Nat :=
  bs.foldl (fun acc b => 256 * acc + b) 0

lemma beBytesToNat_zeros : beBytesToNat (List.replicate 32 0) = 0 := rfl

/-- `natToBEBytes l n` really is the big-endian base-256 representation
of `n` on `l` bytes: interpreting it back gives `n` whenever `n` fits. -/
lemma beBytesToNat_natToBEBytes (l : Nat) : ∀ n, n < 256 ^ l →
    beBytesToNat (natToBEBytes l n) = n := by
  induction l with
  | zero =>
    intro n h
    have hn : n = 0 := by simpa using h
    simp [hn, natToBEBytes, beBytesToNat]
  | succ k ih =>
    intro n h
    have hdiv : n / 256 < 256 ^ k := by
      rw [pow_succ] at h
      omega
    have hih := ih (n / 256) hdiv
    simp only [natToBEBytes, beBytesToNat, List.foldl_append, List.foldl_cons,
      List.foldl_nil] at hih ⊢
    omega

lemma isHexChar_not_space {c : Char} (h : isHexChar c = true) : isPySpace c = false := by
  simp only [isPySpace, Bool.or_eq_false_iff, decide_eq_false_iff_not]
  refine ⟨⟨⟨⟨⟨?_, ?_⟩, ?_⟩, ?_⟩, ?_⟩, ?_⟩ <;>
    · intro hc
      subst hc
      exact absurd h (by decide)

lemma pyBytesFromHexAux_allHex (cs : List Char)
    (hhex : ∀ c ∈ cs, isHexChar c = true) (heven : cs.length % 2 = 0) :
    ∃ bs, pyBytesFromHexAux cs = .ok bs ∧ 2 * bs.length = cs.length := by
  match cs with
  | [] => exact ⟨[], rfl, rfl⟩
  | [c] => simp at heven
  | c1 :: c2 :: rest =>
    have h1 : isHexChar c1 = true := hhex c1 (by simp)
    have h2 : isHexChar c2 = true := hhex c2 (by simp)
    have hs1 : isPySpace c1 = false := isHexChar_not_space h1
    rw [isHexChar, Option.isSome_iff_exists] at h1 h2
    obtain ⟨v1, hv1⟩ := h1
    obtain ⟨v2, hv2⟩ := h2
    have heven2 : rest.length % 2 = 0 := by
      simp only [List.length_cons] at heven; omega
    obtain ⟨bs, hbs, hlen⟩ :=
      pyBytesFromHexAux_allHex rest (fun c hc => hhex c (by simp [hc])) heven2
    refine ⟨(16 * v1 + v2) :: bs, ?_, ?_⟩
    · simp [pyBytesFromHexAux, hs1, hv1, hv2, hbs, Except.map]
    · simp only [List.length_cons]; omega

lemma bytesFromHex_hex40 {s : String} (h : is0xHex40 s = true) :
    ∃ bs, bytesFromHex (s.drop 2) = .ok bs ∧ bs.length = 20 := by
  simp only [is0xHex40, Bool.and_eq_true, beq_iff_eq, List.all_eq_true] at h
  obtain ⟨⟨_, hlen⟩, hhex⟩ := h
  have hdata : (s.drop 2).data = s.data.drop 2 := String.data_drop s 2
  have hslen : s.data.length = 42 := hlen
  have hdl : (s.drop 2).data.length = 40 := by
    rw [hdata, List.length_drop, hslen]
  obtain ⟨bs, hbs, hblen⟩ :=
    pyBytesFromHexAux_allHex (s.drop 2).data hhex (by rw [hdl])
  exact ⟨bs, hbs, by omega⟩

lemma intToBytesBE_ok {l : Nat} {v : Int} (h0 : 0 ≤ v) (h1 : v < (256 : Int) ^ l) :
    intToBytesBE l v = .ok (natToBEBytes l v.toNat) := by
  rw [intToBytesBE, if_neg (by omega), if_neg (by omega)]

lemma intToBytesBE_one {v : Int} (h0 : 0 ≤ v) (h1 : v < 256) :
    intToBytesBE 1 v = .ok [v.toNat] := by
  have : v < (256 : Int) ^ 1 := by simpa using h1
  rw [intToBytesBE_ok h0 this]
  have hv : v.toNat < 256 := by omega
  simp [natToBEBytes, Nat.mod_eq_of_lt hv]

/-- Ranges under which the `int.to_bytes` calls of
`encode_agent_identity` cannot raise `OverflowError` for the token id:
either the EOA branch (which never reads it), or a token id that is
absent, zero (Python falsiness), or in `[0, 256^32)`. -/
def tokenIdInRange (identity : AgentIdentity) : Prop :=
  identity.identity_type = "EOA" ∨
    match identity.token_id with
    | none => True
    | some t => t = 0 ∨ (0 ≤ t ∧ t < (256 : Int) ^ 32)

/-- Shared shape lemma: for a recognized kind, a 40-hex-digit address
and in-range version/token id, `encode_agent_identity` succeeds and the
output is version byte, kind byte, 20 address bytes, and the 32-byte
big-endian token field: all zeros for EOA and for an absent or zero
token id, otherwise the big-endian bytes of the token id, which
interpret back to its value. -/
lemma encode_ok_of_valid (identity : AgentIdentity)
    (hkind : identity.identity_type = "EOA" ∨ identity.identity_type = "ERC6551")
    (haddr : is0xHex40 identity.address = true)
    (hv0 : 0 ≤ identity.version) (hv1 : identity.version < 256)
    (htok : tokenIdInRange identity) :
    ∃ addressBytes tokenBytes,
      bytesFromHex (identity.address.drop 2) = .ok addressBytes ∧
      addressBytes.length = 20 ∧ tokenBytes.length = 32 ∧
      tokenBytes =
        (if identity.identity_type = "EOA" then List.replicate 32 0
         else
           match identity.token_id with
           | none => List.replicate 32 0
           | some t => if t = 0 then List.replicate 32 0
                       else natToBEBytes 32 t.toNat) ∧
      beBytesToNat tokenBytes =
        (if identity.identity_type = "ERC6551" then
           (match identity.token_id with
            | none => 0
            | some t => t.toNat)
         else 0) ∧
      encode_agent_identity identity = .ok
        (identity.version.toNat ::
          (if identity.identity_type = "EOA" then 1 else 2) ::
            (addressBytes ++ tokenBytes)) := by
  obtain ⟨abs, habs, halen⟩ := bytesFromHex_hex40 haddr
  have hver : intToBytesBE 1 identity.version = .ok [identity.version.toNat] :=
    intToBytesBE_one hv0 hv1
  rcases hkind with hk | hk
  · refine ⟨abs, List.replicate 32 0, habs, halen, by simp,
      by simp [hk], by simp [hk]; rfl, ?_⟩
    unfold encode_agent_identity
    rw [hk, hver, habs]
    rfl
  · have hne : ¬ identity.identity_type = "EOA" := by rw [hk]; decide
    match hid : identity.token_id with
    | none =>
      refine ⟨abs, List.replicate 32 0, habs, halen, by simp,
        by simp [hne, hid], by simp [hk, hid]; rfl, ?_⟩
      unfold encode_agent_identity
      rw [hk, hver, habs, hid]
      rfl
    | some t =>
      rw [tokenIdInRange, hid] at htok
      have htok2 : t = 0 ∨ (0 ≤ t ∧ t < (256 : Int) ^ 32) := by
        rcases htok with hEOA | h
        · exact absurd hEOA hne
        · exact h
      by_cases ht0 : t = 0
      · refine ⟨abs, List.replicate 32 0, habs, halen, by simp,
          by simp [hne, hid, ht0], by simp [hk, hid, ht0]; rfl, ?_⟩
        unfold encode_agent_identity
        rw [hk, hver, habs, hid, ht0]
        rfl
      · obtain ⟨ht1, ht2⟩ := htok2.resolve_left ht0
        obtain ⟨tb, htbeq, htb, htblen⟩ :
            ∃ tb, tb = natToBEBytes 32 t.toNat ∧
              intToBytesBE 32 t = .ok tb ∧ tb.length = 32 :=
          ⟨natToBEBytes 32 t.toNat, rfl, intToBytesBE_ok ht1 ht2,
            natToBEBytes_length 32 t.toNat⟩
        have htlt : t.toNat < 256 ^ 32 := by
          have hcast : ((t.toNat : Int)) < (256 : Int) ^ 32 := by
            rwa [Int.toNat_of_nonneg ht1]
          exact_mod_cast hcast
        refine ⟨abs, tb, habs, halen, htblen,
          by rw [htbeq]; simp [hne, hid, ht0],
          by rw [htbeq, beBytesToNat_natToBEBytes 32 t.toNat htlt]; simp [hk, hid],
          ?_⟩
        have hbt0 : (t == 0) = false := by simpa using ht0
        unfold encode_agent_identity
        rw [hk, hver, habs, hid]
        simp [hbt0, htb, Except.mapError]
        all_goals rfl

lemma exceptBind_ok {α β ε : Type} (a : α) (f : α → Except ε β) :
    (Except.ok a >>= f) = f a := rfl

lemma exceptBind_err {α β ε : Type} (e : ε) (f : α → Except ε β) :
    ((Except.error e : Except ε α) >>= f) = .error e := rfl

lemma exceptMapError_ok {α ε δ : Type} (a : α) (f : ε → δ) :
    (Except.ok a : Except ε α).mapError f = .ok a := rfl

lemma exceptMapError_err {α ε δ : Type} (e : ε) (f : ε → δ) :
    (Except.error e : Except ε α).mapError f = .error (f e) := rfl

/-! ### The spec's concrete example identity -/

/-- The address of the spec's example scenario. -/
def exampleEOAAddress : String := "0x1111111111111111111111111111111111111111"

/-- The spec's example scenario identity: EOA, version 1. -/
def exampleEOAIdentity : AgentIdentity :=
  { version := 1, identity_type := "EOA", address := exampleEOAAddress, token_id := none }

/-- The expected encoding: `0x01`, `0x01`, twenty `0x11` bytes,
thirty-two `0x00` bytes. -/
def exampleEOABytes : List Nat :=
  1 :: 1 :: (List.replicate 20 17 ++ List.replicate 32 0)

/-! ### Claim C1 -/

/-- C1 counterexample: the claim quantifies over every `AgentIdentity`
of kind EOA/ERC6551 with a 0x-prefixed 40-hex-char address, but an
identity with `version = 256` (which the pydantic model accepts, as it
puts no bound on `version`) makes `version.to_bytes(1, "big")` raise
`OverflowError`, so `encode_agent_identity` does not return any 54-byte
encoding for it. -/
theorem c1_counterexample :
    encode_agent_identity
        { version := 256, identity_type := "EOA", address := exampleEOAAddress,
          token_id := none }
      = .error (.overflowError "int too big to convert") := by
  unfold encode_agent_identity
  rw [show intToBytesBE 1 256 = .error "int too big to convert" by
    rw [intToBytesBE, if_neg (by omega), if_pos (by norm_num)]]
  rfl

/-- C1 (amended): for every identity of a recognized kind with a
0x-prefixed 40-hex-char address **and a version that fits one byte and
an absent/zero/256-bit token id**, `encode_agent_identity` returns
version byte, kind discriminant (1 for EOA, 2 for ERC6551), 20 address
bytes and the 32-byte big-endian token-id field — pinned exactly: all
zeros for EOA and for an absent or zero token id, and otherwise the
big-endian bytes of the token id, whose base-256 reading is the token
id's value — 54 bytes in total; the concrete EOA example with address
`0x1111…11` and version 1 encodes to `01 01` + 20×`11` + 32×`00`, and
`derive_agent_id_key` is the keccak256 of exactly that 54-byte
sequence on every derivation. -/
theorem c1_fixed_layout_encoding
    (identity : AgentIdentity) (keccak : List Nat → List Nat)
    (hkind : identity.identity_type = "EOA" ∨ identity.identity_type = "ERC6551")
    (haddr : is0xHex40 identity.address = true)
    (hv0 : 0 ≤ identity.version) (hv1 : identity.version < 256)
    (htok : tokenIdInRange identity) :
    (∃ addressBytes tokenBytes,
      bytesFromHex (identity.address.drop 2) = .ok addressBytes ∧
      addressBytes.length = 20 ∧ tokenBytes.length = 32 ∧
      tokenBytes =
        (if identity.identity_type = "EOA" then List.replicate 32 0
         else
           match identity.token_id with
           | none => List.replicate 32 0
           | some t => if t = 0 then List.replicate 32 0
                       else natToBEBytes 32 t.toNat) ∧
      beBytesToNat tokenBytes =
        (if identity.identity_type = "ERC6551" then
           (match identity.token_id with
            | none => 0
            | some t => t.toNat)
         else 0) ∧
      encode_agent_identity identity = .ok
        (identity.version.toNat ::
          (if identity.identity_type = "EOA" then 1 else 2) ::
            (addressBytes ++ tokenBytes)) ∧
      (identity.version.toNat ::
          (if identity.identity_type = "EOA" then 1 else 2) ::
            (addressBytes ++ tokenBytes)).length = 54) ∧
    encode_agent_identity exampleEOAIdentity = .ok exampleEOABytes ∧
    exampleEOABytes.length = 54 ∧
    derive_agent_id_key keccak exampleEOAIdentity =
      .ok (toHexStr (keccak exampleEOABytes)) := by
  refine ⟨?_, rfl, rfl, rfl⟩
  obtain ⟨abs, tb, h1, h2, h3, h4, h5, h6⟩ :=
    encode_ok_of_valid identity hkind haddr hv0 hv1 htok
  exact ⟨abs, tb, h1, h2, h3, h4, h5, h6,
    by simp [List.length_append, h2, h3]⟩

/-- C1 witness: the amended theorem applied to the spec's example
identity, with the hash parameter instantiated to the identity
function. -/
theorem c1_fixed_layout_encoding_witness :
    (∃ addressBytes tokenBytes,
      bytesFromHex (exampleEOAIdentity.address.drop 2) = .ok addressBytes ∧
      addressBytes.length = 20 ∧ tokenBytes.length = 32 ∧
      tokenBytes =
        (if exampleEOAIdentity.identity_type = "EOA" then List.replicate 32 0
         else
           match exampleEOAIdentity.token_id with
           | none => List.replicate 32 0
           | some t => if t = 0 then List.replicate 32 0
                       else natToBEBytes 32 t.toNat) ∧
      beBytesToNat tokenBytes =
        (if exampleEOAIdentity.identity_type = "ERC6551" then
           (match exampleEOAIdentity.token_id with
            | none => 0
            | some t => t.toNat)
         else 0) ∧
      encode_agent_identity exampleEOAIdentity = .ok
        (exampleEOAIdentity.version.toNat ::
          (if exampleEOAIdentity.identity_type = "EOA" then 1 else 2) ::
            (addressBytes ++ tokenBytes)) ∧
      (exampleEOAIdentity.version.toNat ::
          (if exampleEOAIdentity.identity_type = "EOA" then 1 else 2) ::
            (addressBytes ++ tokenBytes)).length = 54) ∧
    encode_agent_identity exampleEOAIdentity = .ok exampleEOABytes ∧
    exampleEOABytes.length = 54 ∧
    derive_agent_id_key (fun bs => bs) exampleEOAIdentity =
      .ok (toHexStr ((fun bs => bs) exampleEOABytes)) :=
  c1_fixed_layout_encoding exampleEOAIdentity (fun bs => bs) (Or.inl rfl)
    (by decide) (by decide) (by decide) (Or.inl rfl)

/-! ### Claim C5 -/

/-- A 42-character address the pydantic validator accepts (starts with
`0x`, length 42) whose hex decoding yields only 19 bytes, because
`bytes.fromhex` skips the two trailing spaces. -/
def spacesAddress : String := "0x11111111111111111111111111111111111111  "

/-- An EOA identity built on `spacesAddress`. -/
def spacesIdentity : AgentIdentity :=
  { version := 1, identity_type := "EOA", address := spacesAddress, token_id := none }

/-- A field record with an unrecognized kind (the pydantic constructor
rejects it, but `encode_agent_identity` is duck-typed and reachable
with any field record). -/
def invalidKindIdentity : AgentIdentity :=
  { version := 1, identity_type := "INVALID", address := exampleEOAAddress,
    token_id := none }

/-- C5 counterexample: this address does not denote exactly 20 bytes
(it decodes to 19), yet `validate_address` accepts it and
`encode_agent_identity` succeeds with a 53-byte output instead of
failing with the library's `ValidationError`. -/
theorem c5_counterexample :
    validate_address spacesAddress = .ok spacesAddress ∧
    bytesFromHex (spacesAddress.drop 2) = .ok (List.replicate 19 17) ∧
    encode_agent_identity spacesIdentity =
      .ok (1 :: 1 :: (List.replicate 19 17 ++ List.replicate 32 0)) ∧
    (1 :: 1 :: (List.replicate 19 17 ++ List.replicate 32 0)).length = 53 := by
  exact ⟨rfl, rfl, rfl, rfl⟩

/-- C5 (amended): `encode_agent_identity` raises the library's
`ValidationError` exactly when the kind is unrecognized (and never for
a recognized kind); the decoded byte length of the address is not
checked anywhere — an address accepted by the model validator can
decode to fewer than 20 bytes and still encode successfully, and for a
recognized kind with a true 40-hex-digit address and in-range
version/token id the encoding succeeds without raising. -/
theorem c5_encoding_error_discipline (identity : AgentIdentity) :
    (identity.identity_type ≠ "EOA" → identity.identity_type ≠ "ERC6551" →
      encode_agent_identity identity =
        .error (.validationError
          ("Unsupported identity type: " ++ identity.identity_type))) ∧
    ((identity.identity_type = "EOA" ∨ identity.identity_type = "ERC6551") →
      ∀ msg, encode_agent_identity identity ≠ .error (.validationError msg)) ∧
    ((identity.identity_type = "EOA" ∨ identity.identity_type = "ERC6551") →
      is0xHex40 identity.address = true → 0 ≤ identity.version →
      identity.version < 256 → tokenIdInRange identity →
      ∃ bs, encode_agent_identity identity = .ok bs) := by
  refine ⟨?_, ?_, ?_⟩
  · intro h1 h2
    unfold encode_agent_identity
    rw [if_neg (by simp [h1]), if_neg (by simp [h2])]
  · intro hkind msg
    rcases hkind with hk | hk <;> unfold encode_agent_identity <;> rw [hk]
    · cases hv : intToBytesBE 1 identity.version with
      | error e =>
        simp [hv, exceptMapError_err, exceptBind_err]
      | ok vb =>
        cases ha : bytesFromHex (identity.address.drop 2) with
        | error e =>
          simp [hv, ha, exceptMapError_ok, exceptMapError_err, exceptBind_ok,
            exceptBind_err]
        | ok ab =>
          simp [hv, ha, exceptMapError_ok, exceptBind_ok]
    · cases hv : intToBytesBE 1 identity.version with
      | error e =>
        simp [hv, exceptMapError_err, exceptBind_err]
      | ok vb =>
        cases ha : bytesFromHex (identity.address.drop 2) with
        | error e =>
          simp [hv, ha, exceptMapError_ok, exceptMapError_err, exceptBind_ok,
            exceptBind_err]
        | ok ab =>
          match hid : identity.token_id with
          | none =>
            simp [hv, ha, hid, exceptMapError_ok, exceptBind_ok]
          | some t =>
            by_cases ht0 : (t == 0) = true
            · simp [hv, ha, hid, ht0, exceptMapError_ok, exceptBind_ok]
            · cases htk : intToBytesBE 32 t with
              | error e =>
                simp [hv, ha, hid, ht0, htk, exceptMapError_ok, exceptMapError_err,
                  exceptBind_ok, exceptBind_err]
              | ok tb =>
                simp [hv, ha, hid, ht0, htk, exceptMapError_ok, exceptBind_ok]
  · intro hkind haddr hv0 hv1 htok
    obtain ⟨abs, tb, _, _, _, _, _, h6⟩ :=
      encode_ok_of_valid identity hkind haddr hv0 hv1 htok
    exact ⟨_, h6⟩

/-- C5 witness: the amended theorem applied to an unrecognized kind and
to the valid example identity. -/
theorem c5_encoding_error_discipline_witness :
    encode_agent_identity invalidKindIdentity =
      .error (.validationError ("Unsupported identity type: " ++ "INVALID")) ∧
    ∃ bs, encode_agent_identity exampleEOAIdentity = .ok bs :=
  ⟨(c5_encoding_error_discipline invalidKindIdentity).1
        (by decide) (by decide),
   (c5_encoding_error_discipline exampleEOAIdentity).2.2 (Or.inl rfl)
      (by decide) (by decide) (by decide) (Or.inl rfl)⟩

/-! ### Claim C10 -/

/-- C10: the EOA branch of `encode_agent_identity` never reads
`token_id`, so two EOA identities sharing version and address encode
and key identically whatever their token ids; and an ERC6551 identity
with `token_id = None` encodes identically to one with `token_id = 0`,
because the Python truthiness test `if identity.token_id` is false for
both. -/
theorem c10_token_id_ignored (version : Int) (address : String)
    (t1 t2 : Option Int) (keccak : List Nat → List Nat) :
    encode_agent_identity
        { version := version, identity_type := "EOA", address := address,
          token_id := t1 } =
      encode_agent_identity
        { version := version, identity_type := "EOA", address := address,
          token_id := t2 } ∧
    derive_agent_id_key keccak
        { version := version, identity_type := "EOA", address := address,
          token_id := t1 } =
      derive_agent_id_key keccak
        { version := version, identity_type := "EOA", address := address,
          token_id := t2 } ∧
    encode_agent_identity
        { version := version, identity_type := "ERC6551", address := address,
          token_id := none } =
      encode_agent_identity
        { version := version, identity_type := "ERC6551", address := address,
          token_id := some 0 } ∧
    derive_agent_id_key keccak
        { version := version, identity_type := "ERC6551", address := address,
          token_id := none } =
      derive_agent_id_key keccak
        { version := version, identity_type := "ERC6551", address := address,
          token_id := some 0 } :=
  ⟨rfl, rfl, rfl, rfl⟩

/-! ### Claim C4 -/

/-- C4: `prepare_telemetry_message` is deterministic up to logical
content — equal agent id, addresses equal up to case, equal timestamp
and nonce, and event lists with equal key-value content (equal after
recursive key sorting) give a byte-identical string — and the string is
the serialization of the payload object with the address lowercased,
keys sorted (`address`, `agentId`, `events`, `nonce`, `ts`) and the
whitespace-free separators. -/
theorem c4_deterministic_canonical_serialization
    (agent_id a1 a2 : String) (timestamp : Int) (nonce : String)
    (e1 e2 : List Json)
    (haddr : pyLower a1 = pyLower a2)
    (hev : sortJson (.jarr e1) = sortJson (.jarr e2)) :
    prepare_telemetry_message agent_id a1 timestamp nonce e1 =
      prepare_telemetry_message agent_id a2 timestamp nonce e2 ∧
    sortJson (.jobj
        [("agentId", .jstr agent_id), ("address", .jstr (pyLower a1)),
         ("ts", .jint timestamp), ("nonce", .jstr nonce),
         ("events", .jarr e1)]) =
      .jobj
        [("address", .jstr (pyLower a1)), ("agentId", .jstr agent_id),
         ("events", sortJson (.jarr e1)), ("nonce", .jstr nonce),
         ("ts", .jint timestamp)] ∧
    prepare_telemetry_message agent_id a1 timestamp nonce e1 =
      renderJson (.jobj
        [("address", .jstr (pyLower a1)), ("agentId", .jstr agent_id),
         ("events", sortJson (.jarr e1)), ("nonce", .jstr nonce),
         ("ts", .jint timestamp)]) := by
  refine ⟨?_, rfl, rfl⟩
  show renderJson (sortJson (.jobj
      [("agentId", .jstr agent_id), ("address", .jstr (pyLower a1)),
       ("ts", .jint timestamp), ("nonce", .jstr nonce),
       ("events", .jarr e1)])) =
    renderJson (sortJson (.jobj
      [("agentId", .jstr agent_id), ("address", .jstr (pyLower a2)),
       ("ts", .jint timestamp), ("nonce", .jstr nonce),
       ("events", .jarr e2)]))
  have h1 : sortJson (.jobj
      [("agentId", .jstr agent_id), ("address", .jstr (pyLower a1)),
       ("ts", .jint timestamp), ("nonce", .jstr nonce),
       ("events", .jarr e1)]) =
    .jobj
      [("address", .jstr (pyLower a1)), ("agentId", .jstr agent_id),
       ("events", sortJson (.jarr e1)), ("nonce", .jstr nonce),
       ("ts", .jint timestamp)] := rfl
  have h2 : sortJson (.jobj
      [("agentId", .jstr agent_id), ("address", .jstr (pyLower a2)),
       ("ts", .jint timestamp), ("nonce", .jstr nonce),
       ("events", .jarr e2)]) =
    .jobj
      [("address", .jstr (pyLower a2)), ("agentId", .jstr agent_id),
       ("events", sortJson (.jarr e2)), ("nonce", .jstr nonce),
       ("ts", .jint timestamp)] := rfl
  rw [h1, h2, haddr, hev]

/-- C4 witness: byte-identical output for a mixed-case vs lowercase
address and for two event dicts with the same key-value content in
different insertion order. -/
theorem c4_deterministic_canonical_serialization_witness :
    prepare_telemetry_message "agent-1" "0xAB" 5 "0xnonce"
        [.jobj [("b", .jint 1), ("a", .jint 2)]] =
      prepare_telemetry_message "agent-1" "0xab" 5 "0xnonce"
        [.jobj [("a", .jint 2), ("b", .jint 1)]] :=
  (c4_deterministic_canonical_serialization "agent-1" "0xAB" "0xab" 5 "0xnonce"
    [.jobj [("b", .jint 1), ("a", .jint 2)]]
    [.jobj [("a", .jint 2), ("b", .jint 1)]] rfl rfl).1

/-! ### Claim C6 -/

/-- C6: `verify_signature` compares the recovered signer to the
expected address case-insensitively, returning the comparison's result,
and returns `false` whenever recovery raises (malformed signature); the
`try/except` of the source is the totality of the model: both clauses
exhaust the recovery oracle's behaviors, so no input makes the function
throw. -/
theorem c6_verify_signature_behavior
    (recover : String → String → Except String String)
    (message signature address : String) :
    (∀ r, recover message signature = .ok r →
      verify_signature recover message signature address
        = (pyLower r == pyLower address)) ∧
    (∀ e, recover message signature = .error e →
      verify_signature recover message signature address = false) := by
  constructor
  · intro r hr
    simp [verify_signature, hr]
  · intro e he
    simp [verify_signature, he]

/-- C6 witness: a recovery returning a checksummed form of the expected
address verifies (case-insensitive match), and a recovery that raises
yields `false`. -/
theorem c6_verify_signature_behavior_witness :
    verify_signature (fun _ _ => .ok "0xAB") "msg" "sig" "0xab"
      = (pyLower "0xAB" == pyLower "0xab") ∧
    verify_signature (fun _ _ => .error "bad signature") "msg" "sig" "0xab"
      = false :=
  ⟨(c6_verify_signature_behavior (fun _ _ => .ok "0xAB") "msg" "sig" "0xab").1
      "0xAB" rfl,
   (c6_verify_signature_behavior (fun _ _ => .error "bad signature")
      "msg" "sig" "0xab").2 "bad signature" rfl⟩

/-! ### Accumulator helper lemmas -/

/-- The event record `_add_event` appends. -/
def mkEvent (event_type : String) (now : Int) (data : Json) : TelemetryEventRec :=
  { eventType := event_type, timestamp := now, data := data }

def AccOp.isRecord : AccOp → Bool
  | .record _ _ _ _ _ => true
  | .flushOp _ _ _ => false

def AccOp.outcome : AccOp → SendOutcome
  | .record _ _ _ _ o => o
  | .flushOp _ _ o => o

def SendOutcome.isSuccess : SendOutcome → Bool
  | .respSuccess _ => true
  | _ => false

lemma addEvent_below_threshold (ecdsaSign : String → String → String)
    (s : HandlerState) (now : Int) (event_type : String) (data : Json)
    (nonce : String) (o : SendOutcome)
    (hen : s.enabled = true)
    (hlt : (s.events.length : Int) + 1 < s.batch_size) :
    addEvent ecdsaSign s now event_type data nonce o =
      ({ s with events := s.events ++ [mkEvent event_type now data] }, 0) := by
  have hguard : ¬ (s.batch_size ≤ (s.events.length : Int) + 1) := by omega
  simp [addEvent, hen, hguard, mkEvent]

lemma addEvent_at_threshold (ecdsaSign : String → String → String)
    (s : HandlerState) (now : Int) (event_type : String) (data : Json)
    (nonce : String) (o : SendOutcome)
    (hen : s.enabled = true)
    (hge : s.batch_size ≤ (s.events.length : Int) + 1) :
    (addEvent ecdsaSign s now event_type data nonce o).2 = 1 := by
  have hne : (s.events ++ [mkEvent event_type now data]).isEmpty = false := by
    cases s.events <;> rfl
  cases o <;>
    simp [addEvent, hen, hge, sendTelemetry, sendTelemetryBody, hne, mkEvent]

lemma runAcc_records_no_flush (ecdsaSign : String → String → String)
    (ops : List AccOp) :
    ∀ s : HandlerState, s.enabled = true →
    (∀ op ∈ ops, op.isRecord = true) →
    ((s.events.length : Int) + ops.length < s.batch_size) →
    (runAcc ecdsaSign s ops).events.length = s.events.length + ops.length ∧
    runAccAttempts ecdsaSign s ops = 0 ∧
    (runAcc ecdsaSign s ops).enabled = true ∧
    (runAcc ecdsaSign s ops).batch_size = s.batch_size := by
  induction ops with
  | nil =>
    intro s hen _ _
    simp [runAcc, runAccAttempts, hen]
  | cons op ops ih =>
    intro s hen hrec hlt
    have hisrec := hrec op (List.mem_cons_self op ops)
    cases op with
    | flushOp now nonce o => simp [AccOp.isRecord] at hisrec
    | record now event_type data nonce o =>
      have hlt1 : (s.events.length : Int) + 1 < s.batch_size := by
        simp only [List.length_cons] at hlt
        push_cast at hlt
        omega
      have hstep : stepAcc ecdsaSign s (.record now event_type data nonce o) =
          ({ s with events := s.events ++ [mkEvent event_type now data] }, 0) := by
        simpa [stepAcc] using
          addEvent_below_threshold ecdsaSign s now event_type data nonce o hen hlt1
      have hlt2 : (((s.events ++ [mkEvent event_type now data]).length : Int) +
          ops.length < s.batch_size) := by
        rw [List.length_append, List.length_singleton]
        simp only [List.length_cons] at hlt
        push_cast at hlt ⊢
        omega
      obtain ⟨ih1, ih2, ih3, ih4⟩ :=
        ih { s with events := s.events ++ [mkEvent event_type now data] }
          hen (fun op2 hop => hrec op2 (List.mem_cons_of_mem _ hop)) hlt2
      have ih1x : (runAcc ecdsaSign
          { s with events := s.events ++ [mkEvent event_type now data] }
            ops).events.length = s.events.length + 1 + ops.length := by
        simpa [List.length_append] using ih1
      have ih4x : (runAcc ecdsaSign
          { s with events := s.events ++ [mkEvent event_type now data] }
            ops).batch_size = s.batch_size := by
        simpa using ih4
      refine ⟨?_, ?_, ?_, ?_⟩
      · simp only [runAcc, hstep, List.length_cons, ih1x]
        omega
      · simp only [runAccAttempts, hstep, ih2]
      · simp only [runAcc, hstep, ih3]
      · simp only [runAcc, hstep, ih4x]

/-! ### Claim C2 -/

/-- C2: one `_send_telemetry` call on a non-empty, enabled accumulator
makes exactly one submission attempt; a `success=true` response empties
the batch; a `success=false` response or any exception leaves the whole
state (in particular the batch: same events, same order, same size)
unchanged; and an exception is absorbed — the `try` body's error never
escapes, the caught result is the unchanged state. -/
theorem c2_flush_success_clears_failure_retains
    (ecdsaSign : String → String → String) (s : HandlerState)
    (timestamp : Int) (nonce : String) (o : SendOutcome)
    (hne : s.events ≠ []) (hen : s.enabled = true) :
    (∀ m, o = .respSuccess m →
      (sendTelemetry ecdsaSign s timestamp nonce o).1.events = []) ∧
    (∀ m, o = .respFailure m →
      (sendTelemetry ecdsaSign s timestamp nonce o).1 = s) ∧
    (∀ m, o = .raiseExc m →
      sendTelemetryBody ecdsaSign s timestamp nonce o = .error m ∧
      (sendTelemetry ecdsaSign s timestamp nonce o).1 = s) ∧
    (sendTelemetry ecdsaSign s timestamp nonce o).2 = 1 := by
  have hem : s.events.isEmpty = false := by
    cases hs : s.events with
    | nil => exact absurd hs hne
    | cons a l => rfl
  refine ⟨?_, ?_, ?_, ?_⟩
  · intro m hm
    subst hm
    simp [sendTelemetry, sendTelemetryBody, hem, hen]
  · intro m hm
    subst hm
    simp [sendTelemetry, sendTelemetryBody, hem, hen]
  · intro m hm
    subst hm
    exact ⟨rfl, by simp [sendTelemetry, sendTelemetryBody, hem, hen]⟩
  · cases o <;> simp [sendTelemetry, sendTelemetryBody, hem, hen]

/-- A state with one batched event, used by the accumulator witnesses. -/
def sampleBusyState : HandlerState :=
  { agent_id := "agent", address := "0xab", private_key := "key", enabled := true,
    batch_size := 10, events := [mkEvent "llm_start" 0 .jnull], last_send_time := 0 }

/-- C2 witness: a failing submission on a concrete one-event state
returns it unchanged, and a succeeding one empties it. -/
theorem c2_flush_success_clears_failure_retains_witness :
    (sendTelemetry (fun _ _ => "sig") sampleBusyState 1 "0xn"
        (.respFailure none)).1 = sampleBusyState ∧
    (sendTelemetry (fun _ _ => "sig") sampleBusyState 1 "0xn"
        (.respSuccess none)).1.events = [] :=
  ⟨(c2_flush_success_clears_failure_retains (fun _ _ => "sig") sampleBusyState
      1 "0xn" (.respFailure none) (by simp [sampleBusyState]) rfl).2.1 none rfl,
   (c2_flush_success_clears_failure_retains (fun _ _ => "sig") sampleBusyState
      1 "0xn" (.respSuccess none) (by simp [sampleBusyState]) rfl).1 none rfl⟩

/-! ### Claim C3 -/

/-- C3: from an empty batch on an enabled accumulator, `N` recorded
events with `N < batch_size` leave the batch at size `N` with zero
submission attempts, and when `N + 1 = batch_size` the next recorded
event makes exactly one submission attempt. -/
theorem c3_threshold_triggers_one_submission
    (ecdsaSign : String → String → String) (s : HandlerState) (ops : List AccOp)
    (now : Int) (event_type : String) (data : Json) (nonce : String)
    (o : SendOutcome)
    (hempty : s.events = []) (hen : s.enabled = true)
    (hrec : ∀ op ∈ ops, op.isRecord = true)
    (hlt : (ops.length : Int) < s.batch_size) :
    (runAcc ecdsaSign s ops).events.length = ops.length ∧
    runAccAttempts ecdsaSign s ops = 0 ∧
    ((ops.length : Int) + 1 = s.batch_size →
      (stepAcc ecdsaSign (runAcc ecdsaSign s ops)
        (.record now event_type data nonce o)).2 = 1) := by
  obtain ⟨h1, h2, h3, h4⟩ :=
    runAcc_records_no_flush ecdsaSign ops s hen hrec (by rw [hempty]; simpa)
  rw [hempty] at h1
  refine ⟨by simpa using h1, h2, ?_⟩
  intro hreach
  have hge : (runAcc ecdsaSign s ops).batch_size ≤
      (((runAcc ecdsaSign s ops).events.length : Int)) + 1 := by
    rw [h4, h1]
    omega
  simpa [stepAcc] using
    addEvent_at_threshold ecdsaSign (runAcc ecdsaSign s ops) now event_type data
      nonce o h3 hge

/-- C3 witness: threshold 2, one recorded event below threshold (no
attempt), then the second recorded event makes exactly one attempt. -/
theorem c3_threshold_triggers_one_submission_witness :
    runAccAttempts (fun _ _ => "sig")
        (initHandlerState "agent" "0xab" "key" true 2)
        [.record 0 "llm_start" .jnull "0xn" (.respSuccess none)] = 0 ∧
    (stepAcc (fun _ _ => "sig")
        (runAcc (fun _ _ => "sig") (initHandlerState "agent" "0xab" "key" true 2)
          [.record 0 "llm_start" .jnull "0xn" (.respSuccess none)])
        (.record 1 "llm_end" .jnull "0xn2" (.respFailure none))).2 = 1 :=
  ⟨(c3_threshold_triggers_one_submission (fun _ _ => "sig")
      (initHandlerState "agent" "0xab" "key" true 2)
      [.record 0 "llm_start" .jnull "0xn" (.respSuccess none)]
      1 "llm_end" .jnull "0xn2" (.respFailure none) rfl rfl
      (by intro op hop; simp at hop; subst hop; rfl) (by decide)).2.1,
   (c3_threshold_triggers_one_submission (fun _ _ => "sig")
      (initHandlerState "agent" "0xab" "key" true 2)
      [.record 0 "llm_start" .jnull "0xn" (.respSuccess none)]
      1 "llm_end" .jnull "0xn2" (.respFailure none) rfl rfl
      (by intro op hop; simp at hop; subst hop; rfl) (by decide)).2.2
      (by decide)⟩

/-! ### Claim C9 -/

/-- C9: with telemetry disabled, `_add_event` is a no-op — unchanged
state and zero submission attempts; `_send_telemetry` (and so `flush`)
is a no-op whenever the batch is empty or telemetry is disabled. -/
theorem c9_disabled_or_empty_noop (ecdsaSign : String → String → String)
    (s : HandlerState) (now : Int) (event_type : String) (data : Json)
    (nonce nonce2 : String) (ts2 : Int) (o o2 : SendOutcome) :
    (s.enabled = false →
      addEvent ecdsaSign s now event_type data nonce o = (s, 0)) ∧
    (s.events = [] ∨ s.enabled = false →
      sendTelemetry ecdsaSign s ts2 nonce2 o2 = (s, 0)) := by
  constructor
  · intro h
    simp [addEvent, h]
  · intro h
    rcases h with h | h
    · simp [sendTelemetry, h]
    · simp [sendTelemetry, h]

/-- C9 witness: a disabled one-event state ignores a record, and an
enabled empty state ignores a flush. -/
theorem c9_disabled_or_empty_noop_witness :
    addEvent (fun _ _ => "sig")
        { sampleBusyState with enabled := false } 3 "tool_start" .jnull "0xn"
        (.respSuccess none) = ({ sampleBusyState with enabled := false }, 0) ∧
    sendTelemetry (fun _ _ => "sig")
        (initHandlerState "agent" "0xab" "key" true 10) 3 "0xn"
        (.respSuccess none) = (initHandlerState "agent" "0xab" "key" true 10, 0) :=
  ⟨(c9_disabled_or_empty_noop (fun _ _ => "sig")
      { sampleBusyState with enabled := false } 3 "tool_start" .jnull "0xn" "0xn"
      3 (.respSuccess none) (.respSuccess none)).1 rfl,
   (c9_disabled_or_empty_noop (fun _ _ => "sig")
      (initHandlerState "agent" "0xab" "key" true 10) 3 "tool_start" .jnull "0xn"
      "0xn" 3 (.respSuccess none) (.respSuccess none)).2 (Or.inl rfl)⟩

/-! ### Claim C7 -/

/-- The two-state property of the spec: Idle (batch empty) or
Accumulating (batch non-empty below the threshold). -/
def twoStateInv (s : HandlerState) : Prop :=
  s.events = [] ∨ ((s.events.length : Int) < s.batch_size)

lemma step_preserves_twoStateInv (ecdsaSign : String → String → String)
    (s : HandlerState) (op : AccOp)
    (hinv : twoStateInv s) (hsucc : op.outcome.isSuccess = true) :
    twoStateInv (stepAcc ecdsaSign s op).1 := by
  cases op with
  | record now event_type data nonce o =>
    cases o with
    | respFailure m => simp [AccOp.outcome, SendOutcome.isSuccess] at hsucc
    | raiseExc m => simp [AccOp.outcome, SendOutcome.isSuccess] at hsucc
    | respSuccess m =>
      by_cases hen : s.enabled = true
      · by_cases hth : s.batch_size ≤ (s.events.length : Int) + 1
        · left
          have hne : (s.events ++ [mkEvent event_type now data]).isEmpty = false := by
            cases s.events <;> rfl
          simp [stepAcc, addEvent, hen, hth, sendTelemetry, sendTelemetryBody, hne,
            mkEvent]
        · right
          simp only [stepAcc, addEvent, hen]
          simp [hth, List.length_append]
          omega
      · have hen2 : s.enabled = false := by
          cases he : s.enabled
          · rfl
          · exact absurd he hen
        simpa [stepAcc, addEvent, hen2] using hinv
  | flushOp ts nonce o =>
    cases o with
    | respFailure m => simp [AccOp.outcome, SendOutcome.isSuccess] at hsucc
    | raiseExc m => simp [AccOp.outcome, SendOutcome.isSuccess] at hsucc
    | respSuccess m =>
      by_cases hguard : (s.events.isEmpty || !s.enabled) = true
      · simpa [stepAcc, sendTelemetry, hguard] using hinv
      · left
        have hguard2 : (s.events.isEmpty || !s.enabled) = false := by
          cases hg : (s.events.isEmpty || !s.enabled)
          · rfl
          · exact absurd hg hguard
        simp [stepAcc, sendTelemetry, sendTelemetryBody, hguard2]

lemma runAcc_preserves_twoStateInv (ecdsaSign : String → String → String)
    (ops : List AccOp) :
    ∀ s : HandlerState, twoStateInv s →
    (∀ op ∈ ops, op.outcome.isSuccess = true) →
    twoStateInv (runAcc ecdsaSign s ops) := by
  induction ops with
  | nil => intro s hinv _; simpa [runAcc] using hinv
  | cons op ops ih =>
    intro s hinv hsucc
    simp only [runAcc]
    exact ih (stepAcc ecdsaSign s op).1
      (step_preserves_twoStateInv ecdsaSign s op hinv
        (hsucc op (List.mem_cons_self op ops)))
      (fun op2 hop => hsucc op2 (List.mem_cons_of_mem _ hop))

/-- C7 counterexample: the claimed invariant — every reachable state is
Idle (empty batch) or Accumulating (non-empty, size strictly below the
threshold) — fails on the code: with threshold 1, recording one event
triggers a submission, and when that submission reports failure the
batch is retained at size 1, which is neither empty nor `< 1`. -/
theorem c7_counterexample :
    ¬ twoStateInv (runAcc (fun _ _ => "sig")
        (initHandlerState "agent" "0xab" "key" true 1)
        [.record 0 "llm_start" .jnull "0xn" (.respFailure none)]) := by
  have hrun : runAcc (fun _ _ => "sig")
      (initHandlerState "agent" "0xab" "key" true 1)
      [.record 0 "llm_start" .jnull "0xn" (.respFailure none)] =
      { agent_id := "agent", address := "0xab", private_key := "key",
        enabled := true, batch_size := 1, events := [mkEvent "llm_start" 0 .jnull],
        last_send_time := 0 } := rfl
  rw [twoStateInv, hrun]
  simp

/-- C7 (amended): the two-state shape is an invariant of the reachable
states only along traces in which every triggered submission succeeds;
a failed or excepting submission retains a batch at (or, cumulatively,
above) the threshold, outside both states. -/
theorem c7_two_state_invariant_on_success
    (ecdsaSign : String → String → String)
    (agent_id address private_key : String) (enabled : Bool) (batch_size : Int)
    (ops : List AccOp)
    (hsucc : ∀ op ∈ ops, op.outcome.isSuccess = true) :
    twoStateInv (runAcc ecdsaSign
      (initHandlerState agent_id address private_key enabled batch_size) ops) :=
  runAcc_preserves_twoStateInv ecdsaSign ops
    (initHandlerState agent_id address private_key enabled batch_size)
    (Or.inl rfl) hsucc

/-- C7 witness: a threshold-1 trace whose single triggered submission
succeeds lands back in the Idle state. -/
theorem c7_two_state_invariant_on_success_witness :
    twoStateInv (runAcc (fun _ _ => "sig")
      (initHandlerState "agent" "0xab" "key" true 1)
      [.record 0 "llm_start" .jnull "0xn" (.respSuccess none)]) :=
  c7_two_state_invariant_on_success (fun _ _ => "sig") "agent" "0xab" "key" true 1
    [.record 0 "llm_start" .jnull "0xn" (.respSuccess none)]
    (by intro op hop; simp at hop; subst hop; rfl)

/-! ### Claim C8 -/

/-- C8 counterexample: a handler configured with the mixed-case address
`0xAB` submits a body whose `address` field is `0xAB` — not lowercase
hex — while the signature was computed over the lowercased `0xab`, so
the body's address differs from the value the signature covers. -/
theorem c8_counterexample :
    (buildTelemetryRequest (fun _ _ => "sig")
        (initHandlerState "agent" "0xAB" "key" true 10) 5 "0xn").address
      = "0xAB" ∧
    pyLower "0xAB" = "0xab" ∧
    ("0xAB" : String) ≠ "0xab" :=
  ⟨rfl, rfl, by decide⟩

/-- C8 (amended): the submitted body's `address` field is the handler's
configured address verbatim; the signature is over the canonical
payload, in which the address is lowercased; hence body address and
signed address coincide exactly when the configured address is already
lowercase. -/
theorem c8_body_address_verbatim (ecdsaSign : String → String → String)
    (s : HandlerState) (timestamp : Int) (nonce : String) :
    (buildTelemetryRequest ecdsaSign s timestamp nonce).address = s.address ∧
    (buildTelemetryRequest ecdsaSign s timestamp nonce).signature =
      sign_message ecdsaSign
        (prepare_telemetry_message s.agent_id s.address timestamp nonce
          (s.events.map eventToJson)) s.private_key ∧
    ((buildTelemetryRequest ecdsaSign s timestamp nonce).address =
        pyLower s.address ↔ pyLower s.address = s.address) :=
  ⟨rfl, rfl, ⟨fun h => h.symm, fun h => h.symm⟩⟩

/-- C8 witness: with an already-lowercase configured address the body
address equals the lowercased (signed) address. -/
theorem c8_body_address_verbatim_witness :
    (buildTelemetryRequest (fun _ _ => "sig")
        (initHandlerState "agent" "0xab" "key" true 10) 0 "0xn").address =
      pyLower "0xab" :=
  ((c8_body_address_verbatim (fun _ _ => "sig")
      (initHandlerState "agent" "0xab" "key" true 10) 0 "0xn").2.2).mpr rfl

end Ethys
